import Mathlib

/-!
Verification of the arbitrage decision-and-execution engine of this repository.

Numeric model: JavaScript numbers are idealized as exact rationals (ℚ).
Where the source explicitly distinguishes non-finite values
(`Number.isFinite`, `sanitizeNumber`, parse results of exchange responses),
we use the type `JSNum` below, which separates finite values from
NaN / +Infinity / -Infinity.  Configuration constants (fees, slippage,
thresholds, horizons), which are plain finite numbers loaded from
config.json, are modelled directly as ℚ; the source's `sanitizeNumber`
on such a value is the identity and is noted in comments where it occurs.
-/

namespace ArbBot

/-- A JavaScript number as observed through `Number.isFinite`: a finite
value (idealized as an exact rational) or one of the non-finite values. -/
inductive JSNum where
  | fin (q : ℚ)
  | posInf
  | negInf
  | nan
deriving DecidableEq

/-- Number.isFinite. -/
def JSNum.isFinite : JSNum → Bool
  | .fin _ => true
  | _ => false

/-- sanitizeNumber from src/engine/arbDecision.ts: non-finite values become 0. -/
def sanitizeNumber : JSNum → ℚ
  | .fin q => q
  | _ => 0

/-- bps from src/engine/arbDecision.ts.  Its argument here is already a
rational, hence finite, so the source's Number.isFinite guard is always
taken in the positive direction. -/
def bps (value : ℚ) : ℚ :=
  value * 10000

/-- FeesBpsConfig from src/shared/types.ts.  Fee schedules are static
finite configuration, so the fields are plain rationals. -/
structure FeesBpsConfig where
  spotTaker : ℚ
  futuresTaker : ℚ
deriving DecidableEq

/-- HOURS_PER_YEAR from src/engine/arbDecision.ts. -/
def HOURS_PER_YEAR : ℚ := 24 * 365

/-- ComputeNetEdgeParams from src/engine/arbDecision.ts.  The two prices
are live market data and may be non-finite; the remaining numeric fields
are finite configuration / already-sanitized inputs. -/
structure ComputeNetEdgeParams where
  spot : JSNum
  futures : JSNum
  feesBps : FeesBpsConfig
  slippageBpsPerLeg : ℚ
  considerFunding : Bool
  fundingRateBpsPer8h : ℚ
  fundingHorizonHours : ℚ
  borrowAprPct : ℚ
deriving DecidableEq

/-- ComputeNetEdgeResult from src/engine/arbDecision.ts. -/
structure ComputeNetEdgeResult where
  basisBps : ℚ
  fundingBps : ℚ
  borrowBps : ℚ
  netLongCarry : ℚ
  netReverseCarry : ℚ
deriving DecidableEq

/-- computeNetEdgeBps from src/engine/arbDecision.ts.
The source sanitizes every numeric input; on the finite configuration
fields the sanitization is the identity and only the Math.max clamps
remain visible here. -/
def computeNetEdgeBps (params : ComputeNetEdgeParams) : ComputeNetEdgeResult :=
  let spot := sanitizeNumber params.spot
  let futures := sanitizeNumber params.futures
  let fundingHorizonHours := max 0 params.fundingHorizonHours
  let fundingRateBpsPer8h := params.fundingRateBpsPer8h
  let borrowAprPct := max 0 params.borrowAprPct
  if spot ≤ 0 then
    { basisBps := 0, fundingBps := 0, borrowBps := 0, netLongCarry := 0, netReverseCarry := 0 }
  else
    let basisBps := bps ((futures - spot) / spot)
    let feesBps := params.feesBps.spotTaker + params.feesBps.futuresTaker
    let slippageBps := params.slippageBpsPerLeg * 2
    let fundingMultiplier := fundingHorizonHours / 8
    let fundingBps := if params.considerFunding then fundingRateBpsPer8h * fundingMultiplier else 0
    let borrowBps :=
      if 0 < borrowAprPct then borrowAprPct * 100 * (fundingHorizonHours / HOURS_PER_YEAR) else 0
    { basisBps := basisBps
      fundingBps := fundingBps
      borrowBps := borrowBps
      netLongCarry := basisBps - feesBps - slippageBps + fundingBps
      netReverseCarry := -basisBps - feesBps - slippageBps - borrowBps - fundingBps }

/-- Side from src/shared/types.ts. -/
inductive Side where
  | LONG_SPOT_SHORT_PERP
  | SHORT_SPOT_LONG_PERP
  | NONE
deriving DecidableEq

/-- The cfg bundle of DecideSideParams from src/engine/arbDecision.ts. -/
structure DecideSideCfg where
  feesBps : FeesBpsConfig
  slippageBpsPerLeg : ℚ
  considerFunding : Bool
  fundingHorizonHours : ℚ
  minSpreadBpsLongCarry : ℚ
  minSpreadBpsReverse : ℚ
  allowReverse : Bool
  spotMarginEnabled : Bool
  maxBorrowAprPct : ℚ
deriving DecidableEq

/-- DecideSideParams from src/engine/arbDecision.ts. -/
structure DecideSideParams where
  spot : JSNum
  futures : JSNum
  cfg : DecideSideCfg
  fundingRateBpsPer8h : ℚ
  borrowAprPct : ℚ
deriving DecidableEq

/-- The EdgeMetrics that decideSide computes internally: computeNetEdgeBps
applied to the sanitized prices and the clamped borrow APR, exactly as the
source builds the argument record. -/
def decideMetrics (p : DecideSideParams) : ComputeNetEdgeResult :=
  computeNetEdgeBps
    { spot := .fin (sanitizeNumber p.spot)
      futures := .fin (sanitizeNumber p.futures)
      feesBps := p.cfg.feesBps
      slippageBpsPerLeg := p.cfg.slippageBpsPerLeg
      considerFunding := p.cfg.considerFunding
      fundingRateBpsPer8h := p.fundingRateBpsPer8h
      fundingHorizonHours := p.cfg.fundingHorizonHours
      borrowAprPct := max 0 p.borrowAprPct }

/-- decideSide from src/engine/arbDecision.ts. -/
def decideSide (p : DecideSideParams) : Side :=
  let spot := sanitizeNumber p.spot
  let futures := sanitizeNumber p.futures
  let borrowAprPct := max 0 p.borrowAprPct
  if spot ≤ 0 ∨ futures ≤ 0 then
    .NONE
  else
    let metrics := decideMetrics p
    if spot < futures ∧ p.cfg.minSpreadBpsLongCarry ≤ metrics.netLongCarry then
      .LONG_SPOT_SHORT_PERP
    else if futures < spot ∧ p.cfg.allowReverse ∧ p.cfg.spotMarginEnabled ∧
        borrowAprPct ≤ p.cfg.maxBorrowAprPct ∧
        p.cfg.minSpreadBpsReverse ≤ metrics.netReverseCarry then
      .SHORT_SPOT_LONG_PERP
    else
      .NONE

end ArbBot

namespace ArbBot

/-- Concrete decideSide input exhibiting the gap between the claimed raw
borrow-APR comparison and the clamped comparison the source performs. -/
def decideSideRawBorrowInput : DecideSideParams :=
  { spot := .fin 100, futures := .fin 90,
    cfg := { feesBps := ⟨0, 0⟩, slippageBpsPerLeg := 0, considerFunding := false,
             fundingHorizonHours := 0, minSpreadBpsLongCarry := 0,
             minSpreadBpsReverse := -100000, allowReverse := true,
             spotMarginEnabled := true, maxBorrowAprPct := -1 },
    fundingRateBpsPer8h := 0, borrowAprPct := -5 }

end ArbBot

namespace ArbBot

/-- C1 counterexample: the claim asserts
fundingBps = fundingRateBpsPer8h × (fundingHorizonHours / 8) for all finite
inputs with spot > 0 whenever considerFunding is true, but computeNetEdgeBps
first clamps fundingHorizonHours to ≥ 0.  At fundingHorizonHours = -8 and
fundingRateBpsPer8h = 8 the claimed formula gives -8 while the code gives 0. -/
theorem computeNetEdgeBps_funding_not_unclamped :
    (computeNetEdgeBps
      { spot := .fin 100, futures := .fin 100, feesBps := ⟨0, 0⟩, slippageBpsPerLeg := 0,
        considerFunding := true, fundingRateBpsPer8h := 8, fundingHorizonHours := -8,
        borrowAprPct := 0 }).fundingBps ≠ 8 * ((-8 : ℚ) / 8) := by
  norm_num [computeNetEdgeBps, sanitizeNumber, bps, HOURS_PER_YEAR]

/-- C1 (amended): for all finite inputs with spot > 0, computeNetEdgeBps returns
basisBps = (futures − spot)/spot × 10000; fundingBps = fundingRateBpsPer8h ×
(max 0 fundingHorizonHours / 8) when considerFunding is true, else 0 (the horizon
is first clamped to ≥ 0); borrowBps = borrowAprPct × 100 ×
(max 0 fundingHorizonHours / (24×365)) when borrowAprPct > 0, else 0
(borrowAprPct is first clamped to ≥ 0, which leaves positive values unchanged);
netLongCarry = basisBps − (spotTaker + futuresTaker) − 2×slippageBpsPerLeg +
fundingBps; netReverseCarry = −basisBps − (spotTaker + futuresTaker) −
2×slippageBpsPerLeg − borrowBps − fundingBps.  In particular spot = 100,
futures = 101 gives basisBps = 100. -/
theorem computeNetEdgeBps_formulas_clamped
    (spot futures spotTaker futuresTaker slip fr fh ba : ℚ) (cf : Bool)
    (r : ComputeNetEdgeResult)
    (hspot : 0 < spot)
    (hr : r = computeNetEdgeBps
      { spot := .fin spot, futures := .fin futures, feesBps := ⟨spotTaker, futuresTaker⟩,
        slippageBpsPerLeg := slip, considerFunding := cf, fundingRateBpsPer8h := fr,
        fundingHorizonHours := fh, borrowAprPct := ba }) :
    r.basisBps = (futures - spot) / spot * 10000 ∧
    r.fundingBps = (if cf then fr * (max 0 fh / 8) else 0) ∧
    r.borrowBps = (if 0 < ba then ba * 100 * (max 0 fh / (24 * 365)) else 0) ∧
    r.netLongCarry = r.basisBps - (spotTaker + futuresTaker) - 2 * slip + r.fundingBps ∧
    r.netReverseCarry = -r.basisBps - (spotTaker + futuresTaker) - 2 * slip
      - r.borrowBps - r.fundingBps ∧
    (computeNetEdgeBps
      { spot := .fin 100, futures := .fin 101, feesBps := ⟨0, 0⟩, slippageBpsPerLeg := 0,
        considerFunding := false, fundingRateBpsPer8h := 0, fundingHorizonHours := 0,
        borrowAprPct := 0 }).basisBps = 100 := by
  have hns : ¬ (spot ≤ 0) := not_le.mpr hspot
  subst hr
  refine ⟨?_, ?_, ?_, ?_, ?_, ?_⟩
  · simp [computeNetEdgeBps, sanitizeNumber, bps, hns]
  · simp [computeNetEdgeBps, sanitizeNumber, bps, hns]
  · simp only [computeNetEdgeBps, sanitizeNumber, bps, HOURS_PER_YEAR, hns, if_false,
      lt_max_iff, lt_self_iff_false, false_or]
    split_ifs with h
    · rw [max_eq_right h.le]
    · rfl
  · simp only [computeNetEdgeBps, sanitizeNumber, bps, HOURS_PER_YEAR, hns, if_false]
    ring
  · simp only [computeNetEdgeBps, sanitizeNumber, bps, HOURS_PER_YEAR, hns, if_false,
      lt_max_iff, lt_self_iff_false, false_or]
    split_ifs with h1 h2 <;> [rw [max_eq_right h1.le]; skip; skip; skip] <;> ring
  · norm_num [computeNetEdgeBps, sanitizeNumber, bps]

/-- C1 witness: the amended formula theorem applied at
spot = 100, futures = 101, fees ⟨10, 4⟩, slippage 5, funding 8 bps over an
8-hour horizon, borrow APR 20. -/
theorem computeNetEdgeBps_formulas_clamped_witness :
    (computeNetEdgeBps
      { spot := .fin 100, futures := .fin 101, feesBps := ⟨10, 4⟩, slippageBpsPerLeg := 5,
        considerFunding := true, fundingRateBpsPer8h := 8, fundingHorizonHours := 8,
        borrowAprPct := 20 }).basisBps = (101 - 100) / 100 * 10000 :=
  (computeNetEdgeBps_formulas_clamped 100 101 10 4 5 8 8 20 true _ (by decide) rfl).1

/-- C2 counterexample: the claim compares the raw borrowAprPct against
maxBorrowAprPct, but decideSide clamps borrowAprPct to ≥ 0 before the
comparison.  Here futures < spot, allowReverse and spotMarginEnabled hold,
the raw borrowAprPct (-5) is ≤ maxBorrowAprPct (-1), and netReverseCarry
clears the reverse threshold, so the claim requires SHORT_SPOT_LONG_PERP;
the code compares the clamped value 0 ≤ -1, which fails, and returns NONE. -/
theorem decideSide_raw_borrow_counterexample :
    decideSide decideSideRawBorrowInput = Side.NONE ∧
    sanitizeNumber decideSideRawBorrowInput.futures
      < sanitizeNumber decideSideRawBorrowInput.spot ∧
    decideSideRawBorrowInput.cfg.allowReverse = true ∧
    decideSideRawBorrowInput.cfg.spotMarginEnabled = true ∧
    decideSideRawBorrowInput.borrowAprPct ≤ decideSideRawBorrowInput.cfg.maxBorrowAprPct ∧
    decideSideRawBorrowInput.cfg.minSpreadBpsReverse
      ≤ (decideMetrics decideSideRawBorrowInput).netReverseCarry := by
  refine ⟨?_, by norm_num [decideSideRawBorrowInput, sanitizeNumber], rfl, rfl,
    by norm_num [decideSideRawBorrowInput], ?_⟩
  · norm_num [decideSide, decideSideRawBorrowInput, decideMetrics, computeNetEdgeBps,
      sanitizeNumber, bps, HOURS_PER_YEAR]
  · norm_num [decideSideRawBorrowInput, decideMetrics, computeNetEdgeBps,
      sanitizeNumber, bps, HOURS_PER_YEAR]

/-- C2 (amended): decideSide applies its rules in order with first match
winning.  It returns LONG_SPOT_SHORT_PERP iff both (sanitized) prices are
> 0, futures > spot, and the internally computed netLongCarry is ≥
minSpreadBpsLongCarry; failing that it returns SHORT_SPOT_LONG_PERP iff
futures < spot, allowReverse, spotMarginEnabled, the borrowAprPct clamped
to ≥ 0 is ≤ maxBorrowAprPct, and netReverseCarry ≥ minSpreadBpsReverse;
in every other case (including either price ≤ 0) it returns NONE. -/
theorem decideSide_characterization (p : DecideSideParams) :
    (decideSide p = Side.LONG_SPOT_SHORT_PERP ↔
      (0 < sanitizeNumber p.spot ∧ 0 < sanitizeNumber p.futures ∧
       sanitizeNumber p.spot < sanitizeNumber p.futures ∧
       p.cfg.minSpreadBpsLongCarry ≤ (decideMetrics p).netLongCarry)) ∧
    (decideSide p = Side.SHORT_SPOT_LONG_PERP ↔
      (0 < sanitizeNumber p.spot ∧ 0 < sanitizeNumber p.futures ∧
       sanitizeNumber p.futures < sanitizeNumber p.spot ∧
       p.cfg.allowReverse = true ∧ p.cfg.spotMarginEnabled = true ∧
       max 0 p.borrowAprPct ≤ p.cfg.maxBorrowAprPct ∧
       p.cfg.minSpreadBpsReverse ≤ (decideMetrics p).netReverseCarry)) ∧
    (decideSide p = Side.NONE ↔
      ¬ (0 < sanitizeNumber p.spot ∧ 0 < sanitizeNumber p.futures ∧
         sanitizeNumber p.spot < sanitizeNumber p.futures ∧
         p.cfg.minSpreadBpsLongCarry ≤ (decideMetrics p).netLongCarry) ∧
      ¬ (0 < sanitizeNumber p.spot ∧ 0 < sanitizeNumber p.futures ∧
         sanitizeNumber p.futures < sanitizeNumber p.spot ∧
         p.cfg.allowReverse = true ∧ p.cfg.spotMarginEnabled = true ∧
         max 0 p.borrowAprPct ≤ p.cfg.maxBorrowAprPct ∧
         p.cfg.minSpreadBpsReverse ≤ (decideMetrics p).netReverseCarry)) := by
  unfold decideSide
  dsimp only
  split_ifs with h1 h2 h3 <;>
    refine ⟨?_, ?_, ?_⟩ <;>
    simp_all <;>
    try tauto
  all_goals
    first
    | (intro hs hf hsf
       exfalso
       rcases h1 with h | h <;> linarith)
    | (intro hs hf hfs h4 h5 h6 h7
       exfalso
       rcases h1 with h | h <;> linarith)
    | (constructor
       · intro hs hf hsf
         exfalso
         rcases h1 with h | h <;> linarith
       · intro hs hf hfs h4 h5 h6 h7
         exfalso
         rcases h1 with h | h <;> linarith)
    | (intro hfs h4 h5 h6 h7
       exfalso
       linarith [h2.1])

/-- C5 counterexample: the claim asserts that a non-finite derivative price
yields an all-zero EdgeMetrics, but with spot = 100 and futures = NaN the
source sanitizes futures to 0 and computes basisBps = -10000 ≠ 0. -/
theorem computeNetEdgeBps_nonfinite_futures_counterexample :
    (computeNetEdgeBps
      { spot := .fin 100, futures := .nan, feesBps := ⟨0, 0⟩, slippageBpsPerLeg := 0,
        considerFunding := false, fundingRateBpsPer8h := 0, fundingHorizonHours := 0,
        borrowAprPct := 0 }).basisBps ≠ 0 := by
  norm_num [computeNetEdgeBps, sanitizeNumber, bps]

/-- C5 (amended): for a non-positive (or non-finite, hence sanitized-to-0)
spot, computeNetEdgeBps returns EdgeMetrics with every field zero; for a
non-finite derivative price the derivative is sanitized to 0, so with a
positive spot the result is not all-zero but has basisBps = -10000; and in
all of these degenerate cases decideSide returns NONE. -/
theorem degenerate_inputs_behavior :
    (∀ params : ComputeNetEdgeParams, sanitizeNumber params.spot ≤ 0 →
       computeNetEdgeBps params =
         { basisBps := 0, fundingBps := 0, borrowBps := 0,
           netLongCarry := 0, netReverseCarry := 0 }) ∧
    (∀ params : ComputeNetEdgeParams, 0 < sanitizeNumber params.spot →
       params.futures.isFinite = false →
       (computeNetEdgeBps params).basisBps = -10000) ∧
    (∀ p : DecideSideParams, sanitizeNumber p.spot ≤ 0 ∨ p.futures.isFinite = false →
       decideSide p = Side.NONE) := by
  refine ⟨?_, ?_, ?_⟩
  · intro params h
    simp [computeNetEdgeBps, h]
  · intro params hpos hnf
    have hzero : sanitizeNumber params.futures = 0 := by
      cases hfut : params.futures <;> simp_all [JSNum.isFinite, sanitizeNumber]
    have hns : ¬ (sanitizeNumber params.spot ≤ 0) := not_le.mpr hpos
    simp only [computeNetEdgeBps, bps, hzero, hns, if_false]
    rw [zero_sub, neg_div, div_self (ne_of_gt hpos)]
    ring
  · intro p h
    rcases h with h | h
    · simp [decideSide, h]
    · have hzero : sanitizeNumber p.futures = 0 := by
        cases hfut : p.futures <;> simp_all [JSNum.isFinite, sanitizeNumber]
      simp [decideSide, hzero]

/-- C5 witness: the amended degenerate-input theorem applied at spot = 0 with
finite futures, at spot = 50 with futures = +Infinity, and at a decideSide
input with futures = NaN. -/
theorem degenerate_inputs_behavior_witness :
    computeNetEdgeBps
      { spot := .fin 0, futures := .fin 50, feesBps := ⟨10, 4⟩, slippageBpsPerLeg := 5,
        considerFunding := true, fundingRateBpsPer8h := 8, fundingHorizonHours := 8,
        borrowAprPct := 20 } =
      { basisBps := 0, fundingBps := 0, borrowBps := 0,
        netLongCarry := 0, netReverseCarry := 0 } ∧
    (computeNetEdgeBps
      { spot := .fin 50, futures := .posInf, feesBps := ⟨10, 4⟩, slippageBpsPerLeg := 5,
        considerFunding := true, fundingRateBpsPer8h := 8, fundingHorizonHours := 8,
        borrowAprPct := 20 }).basisBps = -10000 ∧
    decideSide
      { spot := .fin 50, futures := .nan,
        cfg := { feesBps := ⟨10, 4⟩, slippageBpsPerLeg := 5, considerFunding := true,
                 fundingHorizonHours := 8, minSpreadBpsLongCarry := 5,
                 minSpreadBpsReverse := 5, allowReverse := true,
                 spotMarginEnabled := true, maxBorrowAprPct := 25 },
        fundingRateBpsPer8h := 8, borrowAprPct := 0 } = Side.NONE :=
  ⟨degenerate_inputs_behavior.1 _ (by simp [sanitizeNumber]),
   degenerate_inputs_behavior.2.1 _ (by simp [sanitizeNumber]) (by simp [JSNum.isFinite]),
   degenerate_inputs_behavior.2.2 _ (Or.inr (by simp [JSNum.isFinite]))⟩

/-- C9: for every finite input with spot > 0, the two directional edges of
computeNetEdgeBps sum to −2×(feesTotal + slippageTotal) − borrowBps, with
feesTotal = spotTaker + futuresTaker and slippageTotal = 2×slippageBpsPerLeg;
in particular the sum is independent of the basis and of the funding
contribution. -/
theorem netEdge_sum_identity
    (spot futures spotTaker futuresTaker slip fr fh ba : ℚ) (cf : Bool)
    (hspot : 0 < spot) :
    (computeNetEdgeBps
      { spot := .fin spot, futures := .fin futures, feesBps := ⟨spotTaker, futuresTaker⟩,
        slippageBpsPerLeg := slip, considerFunding := cf, fundingRateBpsPer8h := fr,
        fundingHorizonHours := fh, borrowAprPct := ba }).netLongCarry +
    (computeNetEdgeBps
      { spot := .fin spot, futures := .fin futures, feesBps := ⟨spotTaker, futuresTaker⟩,
        slippageBpsPerLeg := slip, considerFunding := cf, fundingRateBpsPer8h := fr,
        fundingHorizonHours := fh, borrowAprPct := ba }).netReverseCarry
      = -2 * ((spotTaker + futuresTaker) + 2 * slip) -
        (computeNetEdgeBps
          { spot := .fin spot, futures := .fin futures, feesBps := ⟨spotTaker, futuresTaker⟩,
            slippageBpsPerLeg := slip, considerFunding := cf, fundingRateBpsPer8h := fr,
            fundingHorizonHours := fh, borrowAprPct := ba }).borrowBps := by
  have hns : ¬ (spot ≤ 0) := not_le.mpr hspot
  simp only [computeNetEdgeBps, sanitizeNumber, bps, HOURS_PER_YEAR, hns, if_false]
  ring

/-- C9 witness: the edge-sum identity applied at spot = 200, futures = 195,
fees ⟨7, 3⟩, slippage 2, funding 4 bps over a 16-hour horizon, borrow APR 12. -/
theorem netEdge_sum_identity_witness :
    (computeNetEdgeBps
      { spot := .fin 200, futures := .fin 195, feesBps := ⟨7, 3⟩, slippageBpsPerLeg := 2,
        considerFunding := true, fundingRateBpsPer8h := 4, fundingHorizonHours := 16,
        borrowAprPct := 12 }).netLongCarry +
    (computeNetEdgeBps
      { spot := .fin 200, futures := .fin 195, feesBps := ⟨7, 3⟩, slippageBpsPerLeg := 2,
        considerFunding := true, fundingRateBpsPer8h := 4, fundingHorizonHours := 16,
        borrowAprPct := 12 }).netReverseCarry
      = -2 * ((7 + 3) + 2 * 2) -
        (computeNetEdgeBps
          { spot := .fin 200, futures := .fin 195, feesBps := ⟨7, 3⟩, slippageBpsPerLeg := 2,
            considerFunding := true, fundingRateBpsPer8h := 4, fundingHorizonHours := 16,
            borrowAprPct := 12 }).borrowBps :=
  netEdge_sum_identity 200 195 7 3 2 4 16 12 true (by decide)

end ArbBot

namespace ArbBot

inductive Market where
  | spot
  | futures
deriving DecidableEq

inductive OrderSide where
  | BUY
  | SELL
deriving DecidableEq

/-- One invocation of an order-placement primitive (placeSpotMarketBuy,
placeSpotMarketSell, placeFuturesMarketBuy, placeFuturesMarketSell in
src/api/exchange.ts): the market, symbol, side and formatted quantity sent
to the venue.  The execution engine below returns the ordered trace of
these attempts alongside its result. -/
structure OrderAttempt where
  market : Market
  symbol : String
  side : OrderSide
  quantity : ℚ
deriving DecidableEq

/-- formatQuantity from src/api/exchange.ts: toFixed with
QUANTITY_PRECISION (default 6) rounds to six decimal places; the trailing
trimZeros only changes the textual rendering, not the value. -/
def formatQuantity (amount : ℚ) : ℚ :=
  (round (amount * 1000000) : ℚ) / 1000000

inductive TradeSide where
  | LONG_SPOT_SHORT_PERP
  | SHORT_SPOT_LONG_PERP
deriving DecidableEq

/-- TradeParams from src/shared/types.ts; side excludes NONE by type. -/
structure TradeParams where
  buyPrice : ℚ
  sellPrice : ℚ
  amount : ℚ
  feePercentage : ℚ
  spread : JSNum
  side : TradeSide
deriving DecidableEq

/-- calculateProfit from src/logic/calculation.ts. -/
def calculateProfit (t : TradeParams) : ℚ :=
  if t.spread.isFinite = false ∨ t.amount ≤ 0 ∨ t.sellPrice ≤ 0 ∨ t.buyPrice ≤ 0 then
    0
  else
    let gross := |sanitizeNumber t.spread| * t.amount
    let buyFees := t.buyPrice * t.amount * t.feePercentage
    let sellFees := t.sellPrice * t.amount * t.feePercentage
    gross - (buyFees + sellFees)

/-- The order response fields the execution engine inspects (orderId and
status; executedQty and fills are only copied opaquely into details). -/
structure OrderData where
  orderId : Nat
  status : String
deriving DecidableEq

structure PanicSellResult where
  attempted : Bool
  success : Bool
  error : Option String
deriving DecidableEq

/-- panicSellSpot from src/api/exchange.ts: wraps the compensating spot
market sell; the placement outcome (for which the attempt itself is
recorded at the call site) is mapped to a PanicSellResult. -/
def panicSellSpot (result : Except String OrderData) : PanicSellResult :=
  match result with
  | .ok _ => { attempted := true, success := true, error := none }
  | .error e => { attempted := true, success := false, error := some e }

/-- closeFuturesPosition from src/api/exchange.ts: wraps the compensating
futures market sell, same shape as panicSellSpot. -/
def closeFuturesPosition (result : Except String OrderData) : PanicSellResult :=
  match result with
  | .ok _ => { attempted := true, success := true, error := none }
  | .error e => { attempted := true, success := false, error := some e }

/-- The shapes of the details record returned by executeArbitrageOrder. -/
inductive ExecDetails where
  | simulated (direction : TradeSide) (spread : JSNum)
  | firstLegFailure (stage : String) (error : String)
  | secondLegFailure (stage : String) (error : String) (revert : PanicSellResult)
  | completed (direction : TradeSide) (firstOrderId secondOrderId : Nat)
      (firstStatus secondStatus : String)
deriving DecidableEq

/-- OrderExecutionResult from src/api/exchange.ts (executedAt omitted:
wall-clock time plays no role in the claims). -/
structure OrderExecutionResult where
  success : Bool
  profit : ℚ
  details : ExecDetails
deriving DecidableEq

/-- The environment of one executeArbitrageOrder run: the key-store lookup
(getUserKeys, none meaning the simulation context of getBinanceContext) and
the outcome of each order-placement call site, where `.error` models a
thrown request. -/
structure ExecEnv where
  keys : Option String
  firstLegResult : Except String OrderData
  secondLegResult : Except String OrderData
  compensationResult : Except String OrderData

/-- executeArbitrageOrder from src/api/exchange.ts, over an environment
fixing each collaborator call outcome.  Returns the outcome together with
the ordered trace of order-placement attempts. -/
def executeArbitrageOrder (env : ExecEnv) (trade : TradeParams) (symbol : String) :
    OrderExecutionResult × List OrderAttempt :=
  match env.keys with
  | none =>
      let profit := calculateProfit trade
      ({ success := decide (0 < profit), profit := profit,
         details := .simulated trade.side trade.spread }, [])
  | some _ =>
      let quantity := formatQuantity trade.amount
      match trade.side with
      | .SHORT_SPOT_LONG_PERP =>
          let firstAttempt : OrderAttempt := ⟨.futures, symbol, .BUY, quantity⟩
          match env.firstLegResult with
          | .error e =>
              ({ success := false, profit := 0,
                 details := .firstLegFailure "futures-buy" e },
               [firstAttempt])
          | .ok futuresData =>
              let secondAttempt : OrderAttempt := ⟨.spot, symbol, .SELL, quantity⟩
              match env.secondLegResult with
              | .error e =>
                  let compAttempt : OrderAttempt := ⟨.futures, symbol, .SELL, quantity⟩
                  let revertResult := closeFuturesPosition env.compensationResult
                  ({ success := false, profit := 0,
                     details := .secondLegFailure "spot-sell" e revertResult },
                   [firstAttempt, secondAttempt, compAttempt])
              | .ok spotData =>
                  let futuresFilled :=
                    futuresData.status = "FILLED" ∨ futuresData.status = "PARTIALLY_FILLED"
                  let spotFilled :=
                    spotData.status = "FILLED" ∨ spotData.status = "PARTIALLY_FILLED"
                  ({ success := decide (futuresFilled ∧ spotFilled),
                     profit := calculateProfit trade,
                     details := .completed trade.side futuresData.orderId spotData.orderId
                       futuresData.status spotData.status },
                   [firstAttempt, secondAttempt])
      | .LONG_SPOT_SHORT_PERP =>
          let firstAttempt : OrderAttempt := ⟨.spot, symbol, .BUY, quantity⟩
          match env.firstLegResult with
          | .error e =>
              ({ success := false, profit := 0,
                 details := .firstLegFailure "spot-buy" e },
               [firstAttempt])
          | .ok spotData =>
              let secondAttempt : OrderAttempt := ⟨.futures, symbol, .SELL, quantity⟩
              match env.secondLegResult with
              | .error e =>
                  let compAttempt : OrderAttempt := ⟨.spot, symbol, .SELL, quantity⟩
                  let panicSellResult := panicSellSpot env.compensationResult
                  ({ success := false, profit := 0,
                     details := .secondLegFailure "futures-sell" e panicSellResult },
                   [firstAttempt, secondAttempt, compAttempt])
              | .ok futuresData =>
                  let spotFilled :=
                    spotData.status = "FILLED" ∨ spotData.status = "PARTIALLY_FILLED"
                  let futuresFilled :=
                    futuresData.status = "FILLED" ∨ futuresData.status = "PARTIALLY_FILLED"
                  ({ success := decide (spotFilled ∧ futuresFilled),
                     profit := calculateProfit trade,
                     details := .completed trade.side spotData.orderId futuresData.orderId
                       spotData.status futuresData.status },
                   [firstAttempt, secondAttempt])

/-- C3: in directional execution, whenever the first leg succeeds and the
second leg fails, the outcome is unsuccessful regardless of the
compensating order result, the trace consists of exactly the first leg,
the failed second-leg attempt, and exactly one compensating order that is
opposite-side, same-market, same-symbol, same-quantity against the first
leg; and a failed compensation is recorded in the details together with
the original failure, with no retry. -/
theorem executeArbitrageOrder_rollback_invariant
    (env : ExecEnv) (trade : TradeParams) (symbol : String)
    (k : String) (d1 : OrderData) (e : String)
    (hkeys : env.keys = some k)
    (hfirst : env.firstLegResult = .ok d1)
    (hsecond : env.secondLegResult = .error e) :
    (executeArbitrageOrder env trade symbol).1.success = false ∧
    (∃ a1 a2 ac : OrderAttempt,
       (executeArbitrageOrder env trade symbol).2 = [a1, a2, ac] ∧
       ac.market = a1.market ∧ ac.symbol = a1.symbol ∧ ac.quantity = a1.quantity ∧
       a1.side = .BUY ∧ ac.side = .SELL ∧
       ((executeArbitrageOrder env trade symbol).2.countP
         (fun a => a.market == a1.market && a.side == OrderSide.SELL)) = 1) ∧
    (∀ ce, env.compensationResult = .error ce →
       (executeArbitrageOrder env trade symbol).1.details =
         .secondLegFailure
           (match trade.side with
            | .LONG_SPOT_SHORT_PERP => "futures-sell"
            | .SHORT_SPOT_LONG_PERP => "spot-sell")
           e { attempted := true, success := false, error := some ce }) := by
  cases hs : trade.side
  · refine ⟨?_, ?_, ?_⟩
    · simp [executeArbitrageOrder, hkeys, hfirst, hsecond, hs]
    · refine ⟨⟨.spot, symbol, .BUY, formatQuantity trade.amount⟩,
        ⟨.futures, symbol, .SELL, formatQuantity trade.amount⟩,
        ⟨.spot, symbol, .SELL, formatQuantity trade.amount⟩, ?_, rfl, rfl, rfl, rfl, rfl, ?_⟩
      · simp [executeArbitrageOrder, hkeys, hfirst, hsecond, hs]
      · simp [executeArbitrageOrder, hkeys, hfirst, hsecond, hs, List.countP, List.countP.go]
        decide
    · intro ce hce
      simp [executeArbitrageOrder, hkeys, hfirst, hsecond, hs, hce, panicSellSpot]
  · refine ⟨?_, ?_, ?_⟩
    · simp [executeArbitrageOrder, hkeys, hfirst, hsecond, hs]
    · refine ⟨⟨.futures, symbol, .BUY, formatQuantity trade.amount⟩,
        ⟨.spot, symbol, .SELL, formatQuantity trade.amount⟩,
        ⟨.futures, symbol, .SELL, formatQuantity trade.amount⟩, ?_, rfl, rfl, rfl, rfl, rfl, ?_⟩
      · simp [executeArbitrageOrder, hkeys, hfirst, hsecond, hs]
      · simp [executeArbitrageOrder, hkeys, hfirst, hsecond, hs, List.countP, List.countP.go]
        decide
    · intro ce hce
      simp [executeArbitrageOrder, hkeys, hfirst, hsecond, hs, hce, closeFuturesPosition]

/-- Environment with a successful first leg, a failing second leg and a
failing compensating order. -/
def rollbackEnv : ExecEnv :=
  { keys := some "key", firstLegResult := .ok ⟨11, "FILLED"⟩,
    secondLegResult := .error "second leg rejected",
    compensationResult := .error "compensation rejected" }

/-- A concrete forward-direction trade intent. -/
def rollbackTrade : TradeParams :=
  { buyPrice := 100, sellPrice := 101, amount := 1, feePercentage := 1/1000,
    spread := .fin 1, side := .LONG_SPOT_SHORT_PERP }

/-- C3 witness: the rollback invariant applied to a concrete run whose
second leg and compensation both fail. -/
theorem executeArbitrageOrder_rollback_invariant_witness :
    (executeArbitrageOrder rollbackEnv rollbackTrade "BTCUSDT").1.success = false ∧
    (executeArbitrageOrder rollbackEnv rollbackTrade "BTCUSDT").1.details =
      ExecDetails.secondLegFailure "futures-sell" "second leg rejected"
        { attempted := true, success := false, error := some "compensation rejected" } :=
  ⟨(executeArbitrageOrder_rollback_invariant rollbackEnv rollbackTrade "BTCUSDT"
      "key" ⟨11, "FILLED"⟩ "second leg rejected" rfl rfl rfl).1,
   (executeArbitrageOrder_rollback_invariant rollbackEnv rollbackTrade "BTCUSDT"
      "key" ⟨11, "FILLED"⟩ "second leg rejected" rfl rfl rfl).2.2
     "compensation rejected" rfl⟩

/-- Environment in which the very first order placement is rejected. -/
def firstLegFailEnv : ExecEnv :=
  { keys := some "key", firstLegResult := .error "first leg rejected",
    secondLegResult := .ok ⟨21, "FILLED"⟩, compensationResult := .ok ⟨22, "FILLED"⟩ }

/-- A concrete LONG_SPOT_SHORT_PERP trade intent. -/
def longTradeExample : TradeParams :=
  { buyPrice := 100, sellPrice := 101, amount := 2, feePercentage := 1/1000,
    spread := .fin 1, side := .LONG_SPOT_SHORT_PERP }

/-- C4 counterexample: the claim says that for a LongSpotShortDerivative
verdict the derivative short (futures SELL) is placed as the first leg,
but the first attempt in the trace of executeArbitrageOrder for
LONG_SPOT_SHORT_PERP is the spot BUY order. -/
theorem executeArbitrageOrder_long_first_leg_counterexample :
    ((executeArbitrageOrder firstLegFailEnv longTradeExample "BTCUSDT").2.head?.map
        OrderAttempt.market = some Market.spot) ∧
    ((executeArbitrageOrder firstLegFailEnv longTradeExample "BTCUSDT").2.head?.map
        OrderAttempt.side = some OrderSide.BUY) ∧
    Market.spot ≠ Market.futures ∧ OrderSide.BUY ≠ OrderSide.SELL := by
  refine ⟨?_, ?_, by decide, by decide⟩ <;>
    simp [executeArbitrageOrder, firstLegFailEnv, longTradeExample]

/-- C4 (amended): for a LongSpotShortDerivative verdict the execution
engine places the spot buy (market) order as the first leg, and if that
first leg fails it aborts and returns an unsuccessful outcome whose trace
contains only that single attempt: no second leg and no compensating
order (nothing committed yet). -/
theorem executeArbitrageOrder_long_spot_first
    (env : ExecEnv) (trade : TradeParams) (symbol k : String)
    (hkeys : env.keys = some k)
    (hside : trade.side = .LONG_SPOT_SHORT_PERP) :
    (executeArbitrageOrder env trade symbol).2.head? =
      some ⟨.spot, symbol, .BUY, formatQuantity trade.amount⟩ ∧
    (∀ e, env.firstLegResult = .error e →
       (executeArbitrageOrder env trade symbol).1.success = false ∧
       (executeArbitrageOrder env trade symbol).2 =
         [⟨.spot, symbol, .BUY, formatQuantity trade.amount⟩] ∧
       (executeArbitrageOrder env trade symbol).1.details =
         ExecDetails.firstLegFailure "spot-buy" e) := by
  refine ⟨?_, ?_⟩
  · rcases h1 : env.firstLegResult with e | d
    · simp [executeArbitrageOrder, hkeys, hside, h1]
    · rcases h2 : env.secondLegResult with e2 | d2 <;>
        simp [executeArbitrageOrder, hkeys, hside, h1, h2]
  · intro e he
    simp [executeArbitrageOrder, hkeys, hside, he]

/-- C4 witness: the amended first-leg theorem applied to a concrete run
whose first (spot buy) leg is rejected. -/
theorem executeArbitrageOrder_long_spot_first_witness :
    (executeArbitrageOrder firstLegFailEnv longTradeExample "BTCUSDT").1.success = false ∧
    (executeArbitrageOrder firstLegFailEnv longTradeExample "BTCUSDT").2 =
      [⟨Market.spot, "BTCUSDT", OrderSide.BUY, formatQuantity longTradeExample.amount⟩] :=
  ⟨((executeArbitrageOrder_long_spot_first firstLegFailEnv longTradeExample
      "BTCUSDT" "key" rfl rfl).2 "first leg rejected" rfl).1,
   ((executeArbitrageOrder_long_spot_first firstLegFailEnv longTradeExample
      "BTCUSDT" "key" rfl rfl).2 "first leg rejected" rfl).2.1⟩

/-- C10: with no credentials in the key store (simulation context),
executeArbitrageOrder places no orders, its profit equals
calculateProfit(trade), and it succeeds iff this profit is strictly
positive. -/
theorem executeArbitrageOrder_simulation
    (env : ExecEnv) (trade : TradeParams) (symbol : String)
    (hkeys : env.keys = none) :
    (executeArbitrageOrder env trade symbol).2 = [] ∧
    (executeArbitrageOrder env trade symbol).1.profit = calculateProfit trade ∧
    ((executeArbitrageOrder env trade symbol).1.success = true ↔
      0 < calculateProfit trade) := by
  simp [executeArbitrageOrder, hkeys]

/-- Environment with no stored credentials (simulation mode). -/
def simulationEnv : ExecEnv :=
  { keys := none, firstLegResult := .ok ⟨1, "FILLED"⟩,
    secondLegResult := .ok ⟨2, "FILLED"⟩, compensationResult := .ok ⟨3, "FILLED"⟩ }

/-- A concrete profitable trade intent for the simulation witness. -/
def simulationTrade : TradeParams :=
  { buyPrice := 100, sellPrice := 102, amount := 1, feePercentage := 1/1000,
    spread := .fin 2, side := .LONG_SPOT_SHORT_PERP }

/-- C10 witness: the simulation theorem applied to a concrete
credential-less environment and trade. -/
theorem executeArbitrageOrder_simulation_witness :
    (executeArbitrageOrder simulationEnv simulationTrade "BTCUSDT").2 = [] ∧
    (executeArbitrageOrder simulationEnv simulationTrade "BTCUSDT").1.profit =
      calculateProfit simulationTrade ∧
    ((executeArbitrageOrder simulationEnv simulationTrade "BTCUSDT").1.success = true ↔
      0 < calculateProfit simulationTrade) :=
  executeArbitrageOrder_simulation simulationEnv simulationTrade "BTCUSDT" rfl

end ArbBot

namespace ArbBot

/-- SymbolFilters from src/api/exchange.ts. -/
structure SymbolFilters where
  minNotional : Option ℚ
  stepSize : Option ℚ
  minQty : Option ℚ
  tickSize : Option ℚ
deriving DecidableEq

/-- Number(q.toFixed(8)): rounding to eight decimal places. -/
def toFixed8 (q : ℚ) : ℚ :=
  (round (q * 100000000) : ℚ) / 100000000

/-- quantize from src/engine/triangularArb.ts: floor to the step size, zero
out quantities below the minimum, and round the survivor to 8 decimals. -/
def quantize (qty : ℚ) (stepSize minQty : Option ℚ) : ℚ :=
  let q := match stepSize with
    | some s => if 0 < s then (⌊qty / s⌋ : ℚ) * s else qty
    | none => qty
  match minQty with
  | some m => if 0 < m ∧ q < m then 0 else toFixed8 q
  | none => toFixed8 q

inductive MidDirection where
  | AtoB
  | BtoA
deriving DecidableEq

/-- TriangularOpportunity from src/engine/triangularArb.ts; the route
triple is split into three named fields. -/
structure TriangularOpportunity where
  route1 : String
  route2 : String
  route3 : String
  description : String
  midDirection : MidDirection
  netProfitBps : ℚ
deriving DecidableEq

/-- TriExecutionLeg from src/engine/triangularArb.ts.  Every leg the code
pushes carries its parsed executed quantity, which may be a non-finite
parse result, hence JSNum. -/
structure TriExecutionLeg where
  symbol : String
  side : OrderSide
  quantityOrQuote : ℚ
  executedQty : JSNum
deriving DecidableEq

/-- TriExecutionResult from src/engine/triangularArb.ts. -/
structure TriExecutionResult where
  success : Bool
  legs : List TriExecutionLeg
  error : Option String
deriving DecidableEq

/-- The environment of one executeTriangularUSDT run: the outcome of each
awaited collaborator call, where `.error` models a thrown request (caught
by the outer handler). -/
structure TriEnv where
  balanceUSDT : Except String ℚ
  filters : String → Except String SymbolFilters
  leg1Quantity : Except String JSNum
  leg2Quantity : Except String JSNum
  leg3Quantity : Except String JSNum

/-- The JavaScript comparison finalUSDT > spendUSDT on a parsed (possibly
non-finite) amount: false for NaN and -Infinity, true for +Infinity. -/
def jsGtQ (x : JSNum) (y : ℚ) : Bool :=
  match x with
  | .fin q => decide (y < q)
  | .posInf => true
  | _ => false

/-- The body of executeTriangularUSDT from src/engine/triangularArb.ts
(everything inside its try block); error strings abbreviate the Portuguese
originals.  The source checks the parsed quantities with
Number.isFinite(q) and q > 0; both failure modes return the same record,
matched here by the JSNum case split. -/
def executeTriangularUSDTBody (env : TriEnv) (best : TriangularOpportunity)
    (quoteUSDT : ℚ) : Except String TriExecutionResult := do
  let balanceUSDT ← env.balanceUSDT
  let spendUSDT := min (balanceUSDT * (9/10)) quoteUSDT
  if spendUSDT < 10 then
    return { success := false, legs := [], error := some "insufficient USDT balance" }
  let f1 ← env.filters best.route1
  if (match f1.minNotional with
      | some mn => decide (spendUSDT < mn)
      | none => false) then
    return { success := false, legs := [],
             error := some "notional below minimum on first symbol" }
  let executedQtyA ← env.leg1Quantity
  let leg1 : TriExecutionLeg :=
    { symbol := best.route1, side := .BUY, quantityOrQuote := spendUSDT,
      executedQty := executedQtyA }
  match executedQtyA with
  | .fin qA =>
    if qA ≤ 0 then
      return { success := false, legs := [leg1],
               error := some "failed to obtain executed quantity on first leg" }
    else
      match best.midDirection with
      | .AtoB => do
          let f2 ← env.filters best.route2
          let qtyA := quantize qA f2.stepSize f2.minQty
          if qtyA ≤ 0 then
            return { success := false, legs := [leg1],
                     error := some "quantized quantity below minimum for AB" }
          let r2 ← env.leg2Quantity
          let leg2 : TriExecutionLeg :=
            { symbol := best.route2, side := .SELL, quantityOrQuote := qtyA,
              executedQty := r2 }
          match r2 with
          | .fin qB0 =>
            if qB0 ≤ 0 then
              return { success := false, legs := [leg1, leg2],
                       error := some "failed to obtain B quantity on second leg" }
            else do
              let f3 ← env.filters best.route3
              let qtyB := quantize qB0 f3.stepSize f3.minQty
              if qtyB ≤ 0 then
                return { success := false, legs := [leg1, leg2],
                         error := some "B quantity below minimum for last symbol" }
              let finalUSDT ← env.leg3Quantity
              let leg3 : TriExecutionLeg :=
                { symbol := best.route3, side := .SELL, quantityOrQuote := qtyB,
                  executedQty := finalUSDT }
              return { success := jsGtQ finalUSDT spendUSDT,
                       legs := [leg1, leg2, leg3], error := none }
          | _ =>
            return { success := false, legs := [leg1, leg2],
                     error := some "failed to obtain B quantity on second leg" }
      | .BtoA => do
          let f2 ← env.filters best.route2
          if (match f2.minNotional with
              | some mn => decide (qA < mn)
              | none => false) then
            return { success := false, legs := [leg1],
                     error := some "A notional below minimum for BA" }
          let r2 ← env.leg2Quantity
          let leg2 : TriExecutionLeg :=
            { symbol := best.route2, side := .BUY, quantityOrQuote := qA,
              executedQty := r2 }
          match r2 with
          | .fin qB0 =>
            if qB0 ≤ 0 then
              return { success := false, legs := [leg1, leg2],
                       error := some "failed to obtain B quantity on second leg" }
            else do
              let f3 ← env.filters best.route3
              let qtyB := quantize qB0 f3.stepSize f3.minQty
              if qtyB ≤ 0 then
                return { success := false, legs := [leg1, leg2],
                         error := some "B quantity below minimum for last symbol" }
              let finalUSDT ← env.leg3Quantity
              let leg3 : TriExecutionLeg :=
                { symbol := best.route3, side := .SELL, quantityOrQuote := qtyB,
                  executedQty := finalUSDT }
              return { success := jsGtQ finalUSDT spendUSDT,
                       legs := [leg1, leg2, leg3], error := none }
          | _ =>
            return { success := false, legs := [leg1, leg2],
                     error := some "failed to obtain B quantity on second leg" }
  | _ =>
    return { success := false, legs := [leg1],
             error := some "failed to obtain executed quantity on first leg" }

/-- executeTriangularUSDT from src/engine/triangularArb.ts: the body with
the outer try/catch materialized. -/
def executeTriangularUSDT (env : TriEnv) (best : TriangularOpportunity)
    (quoteUSDT : ℚ) : TriExecutionResult :=
  match executeTriangularUSDTBody env best quoteUSDT with
  | .ok r => r
  | .error e => { success := false, legs := [], error := some e }

/-- C6: executeTriangularUSDT reports success = true iff the run produced
all three legs and the final settlement amount recorded on the third leg
strictly exceeds the amount spent on the first leg (the first leg records
spendUSDT as its quote amount, the third records the final USDT); a chain
that completes but does not exceed the spend has success = false. -/
theorem executeTriangularUSDT_success_iff_profit
    (env : TriEnv) (best : TriangularOpportunity) (quoteUSDT : ℚ) :
    (executeTriangularUSDT env best quoteUSDT).success = true ↔
      ∃ l1 l2 l3 : TriExecutionLeg,
        (executeTriangularUSDT env best quoteUSDT).legs = [l1, l2, l3] ∧
        jsGtQ l3.executedQty l1.quantityOrQuote = true := by
  have hbody : ∀ r : TriExecutionResult,
      executeTriangularUSDTBody env best quoteUSDT = .ok r →
      (r.success = true ↔
        ∃ l1 l2 l3 : TriExecutionLeg,
          r.legs = [l1, l2, l3] ∧ jsGtQ l3.executedQty l1.quantityOrQuote = true) := by
    intro r h
    unfold executeTriangularUSDTBody at h
    simp only [bind, Except.bind, pure, Except.pure] at h
    repeat' split at h
    all_goals
      try (cases h)
    all_goals try simp
    all_goals
      constructor
      · intro hs
        exact ⟨_, _, _, ⟨rfl, rfl, rfl⟩, hs⟩
      · rintro ⟨l1, l2, l3, ⟨h1, h2, h3⟩, hp⟩
        subst h1
        subst h2
        subst h3
        simpa using hp
  unfold executeTriangularUSDT
  rcases hb : executeTriangularUSDTBody env best quoteUSDT with e | r
  · simp
  · exact hbody r hb

end ArbBot

namespace ArbBot

/-- The second argument of computeTriangleFactor in
src/engine/triangularArb.ts: the cross-pair quote, carrying an ask or a
bid depending on the traversal direction. -/
structure MidQuote where
  ask : Option ℚ
  bid : Option ℚ
  direction : MidDirection
deriving DecidableEq

/-- bpsFromFactor from src/engine/triangularArb.ts. -/
def bpsFromFactor (factor : ℚ) : ℚ :=
  (factor - 1) * 10000

/-- computeTriangleFactor from src/engine/triangularArb.ts.  The source
reads the taker fee with a default of 10 for a missing field; the typed
FeesBpsConfig always carries the field, so the default never fires.  The
non-null assertions on pair2.bid / pair2.ask are modelled with getD 0
(every call site supplies the field its direction demands). -/
def computeTriangleFactor (pair1Ask : ℚ) (pair2 : MidQuote) (pair3Bid : ℚ)
    (fees : FeesBpsConfig) (slippageBpsPerLeg : ℚ) : ℚ :=
  let feeBps := fees.spotTaker
  let feeFactor := 1 - feeBps / 10000
  let price1Eff := pair1Ask * (1 + slippageBpsPerLeg / 10000)
  let qtyA := (1 / price1Eff) * feeFactor
  let qtyB :=
    match pair2.direction with
    | .AtoB => (qtyA * (pair2.bid.getD 0 * (1 - slippageBpsPerLeg / 10000))) * feeFactor
    | .BtoA => (qtyA / (pair2.ask.getD 0 * (1 + slippageBpsPerLeg / 10000))) * feeFactor
  (qtyB * (pair3Bid * (1 - slippageBpsPerLeg / 10000))) * feeFactor

/-- SpotSymbolInfo from src/api/exchange.ts. -/
structure SpotSymbolInfo where
  symbol : String
  status : String
  baseAsset : String
  quoteAsset : String
deriving DecidableEq

/-- Ticker24h from src/api/exchange.ts (prices idealized as rationals). -/
structure Ticker24h where
  symbol : String
  priceChangePercent : ℚ
  volume : ℚ
  quoteVolume : ℚ
deriving DecidableEq

/-- BookTicker from src/api/exchange.ts. -/
structure BookTicker where
  symbol : String
  bidPrice : ℚ
  askPrice : ℚ
deriving DecidableEq

/-- Lookup in a JavaScript Map built by repeated set over a list: the last
entry with the key wins. -/
def mapGetLast {α : Type} (key : α → String) (l : List α) (k : String) : Option α :=
  l.foldl (fun acc a => if key a = k then some a else acc) none

/-- Membership in the `trading` map of scanTriangularUSDT (symbols with
status TRADING). -/
def tradingHas (info : List SpotSymbolInfo) (sym : String) : Bool :=
  info.any (fun s => s.symbol == sym && s.status == "TRADING")

/-- Membership in the `symbolsSet` of scanTriangularUSDT (all symbols). -/
def symbolsHas (info : List SpotSymbolInfo) (sym : String) : Bool :=
  info.any (fun s => s.symbol == sym)

/-- volBySymbol.get(sym)?.quoteVolume ?? 0 from scanTriangularUSDT. -/
def quoteVolumeOf (tickers : List Ticker24h) (sym : String) : ℚ :=
  ((mapGetLast Ticker24h.symbol tickers sym).map Ticker24h.quoteVolume).getD 0

/-- book.get(sym) from scanTriangularUSDT. -/
def bookOf (books : List BookTicker) (sym : String) : Option BookTicker :=
  mapGetLast BookTicker.symbol books sym

/-- The usdtPairs list of scanTriangularUSDT: TRADING symbols quoted in
USDT whose 24h quote volume clears the floor. -/
def usdtPairsOf (info : List SpotSymbolInfo) (tickers : List Ticker24h)
    (minQuoteVolumeUSDT : ℚ) : List SpotSymbolInfo :=
  (info.filter (fun s => s.status == "TRADING" && s.quoteAsset == "USDT")).filter
    (fun s => decide (minQuoteVolumeUSDT ≤ quoteVolumeOf tickers s.symbol))

/-- The candidates one (A, B) base pair contributes inside the double loop
of scanTriangularUSDT, in source order: the AtoB direction first, then
BtoA; a pair with no cross symbol, or with a missing book entry,
contributes nothing (the loop's continue). -/
def triCandidatesOfPair (info : List SpotSymbolInfo) (tickers : List Ticker24h)
    (books : List BookTicker) (minQuoteVolumeUSDT : ℚ) (fees : FeesBpsConfig)
    (slippageBpsPerLeg : ℚ) (usdtPairs : List SpotSymbolInfo) (A B : String) :
    List TriangularOpportunity :=
  let AUSDT := (mapGetLast SpotSymbolInfo.baseAsset usdtPairs A).getD ⟨"", "", "", ""⟩
  let BUSDT := (mapGetLast SpotSymbolInfo.baseAsset usdtPairs B).getD ⟨"", "", "", ""⟩
  let AB := A ++ B
  let BA := B ++ A
  let hasAB := symbolsHas info AB && tradingHas info AB &&
    decide (minQuoteVolumeUSDT ≤ quoteVolumeOf tickers AB)
  let hasBA := symbolsHas info BA && tradingHas info BA &&
    decide (minQuoteVolumeUSDT ≤ quoteVolumeOf tickers BA)
  if !hasAB && !hasBA then
    []
  else
    match bookOf books AUSDT.symbol, bookOf books BUSDT.symbol with
    | some ausdtBook, some busdtBook =>
        (if hasAB then
           match bookOf books AB with
           | some abBook =>
               let factor := computeTriangleFactor ausdtBook.askPrice
                 ⟨none, some abBook.bidPrice, .AtoB⟩ busdtBook.bidPrice fees slippageBpsPerLeg
               [{ route1 := AUSDT.symbol, route2 := AB, route3 := BUSDT.symbol,
                  description := "USDT->" ++ A ++ "->" ++ B ++ "->USDT",
                  midDirection := .AtoB, netProfitBps := bpsFromFactor factor }]
           | none => []
         else []) ++
        (if hasBA then
           match bookOf books BA with
           | some baBook =>
               let factor := computeTriangleFactor busdtBook.askPrice
                 ⟨some baBook.askPrice, none, .BtoA⟩ ausdtBook.bidPrice fees slippageBpsPerLeg
               [{ route1 := BUSDT.symbol, route2 := BA, route3 := AUSDT.symbol,
                  description := "USDT->" ++ B ++ "->" ++ A ++ "->USDT",
                  midDirection := .BtoA, netProfitBps := bpsFromFactor factor }]
           | none => []
         else [])
    | _, _ => []

/-- The index pairs (i, j) with i < j < n, enumerated exactly like the
nested loops of scanTriangularUSDT: i ascending, then j ascending. -/
def pairIndexes (n : Nat) : List (Nat × Nat) :=
  (List.range n).flatMap
    (fun i => ((List.range n).filter (fun j => i < j)).map (fun j => (i, j)))

/-- Every candidate route scanTriangularUSDT examines (one entry per
checked++ of the source), in enumeration order. -/
def scanCandidates (info : List SpotSymbolInfo) (tickers : List Ticker24h)
    (books : List BookTicker) (minQuoteVolumeUSDT : ℚ) (fees : FeesBpsConfig)
    (slippageBpsPerLeg : ℚ) : List TriangularOpportunity :=
  let usdtPairs := usdtPairsOf info tickers minQuoteVolumeUSDT
  let bases := usdtPairs.map SpotSymbolInfo.baseAsset
  (pairIndexes bases.length).flatMap (fun ij =>
    triCandidatesOfPair info tickers books minQuoteVolumeUSDT fees slippageBpsPerLeg
      usdtPairs (bases.getD ij.1 "") (bases.getD ij.2 ""))

/-- The running-best update of scanTriangularUSDT: replace when there is
no best yet or the candidate is strictly better (the source's
`if (!best || netBps > best.netProfitBps)`). -/
def betterTri (best : Option TriangularOpportunity) (c : TriangularOpportunity) :
    Option TriangularOpportunity :=
  match best with
  | none => some c
  | some b => if b.netProfitBps < c.netProfitBps then some c else some b

/-- The best-tracking fold of scanTriangularUSDT over the candidates. -/
def pickBest (l : List TriangularOpportunity) : Option TriangularOpportunity :=
  l.foldl betterTri none

/-- TriScanResult from src/engine/triangularArb.ts. -/
structure TriScanResult where
  best : Option TriangularOpportunity
  countChecked : Nat
deriving DecidableEq

/-- scanTriangularUSDT from src/engine/triangularArb.ts, over a snapshot
of exchange info, 24h tickers and book tickers: the nested loops with the
mutable best are the fold of betterTri over the candidate enumeration. -/
def scanTriangularUSDT (info : List SpotSymbolInfo) (tickers : List Ticker24h)
    (books : List BookTicker) (minQuoteVolumeUSDT : ℚ) (fees : FeesBpsConfig)
    (slippageBpsPerLeg : ℚ) : TriScanResult :=
  let cands := scanCandidates info tickers books minQuoteVolumeUSDT fees slippageBpsPerLeg
  { best := pickBest cands, countChecked := cands.length }

/-- Helper: a fold of betterTri started at some b0 yields either b0 itself
(everything seen is ≤ it) or the first strict improvement that dominates
the rest. -/
theorem betterTri_foldl_some (l : List TriangularOpportunity) :
    ∀ b0 b : TriangularOpportunity, l.foldl betterTri (some b0) = some b →
      (b = b0 ∧ ∀ c ∈ l, c.netProfitBps ≤ b.netProfitBps) ∨
      (∃ pre post, l = pre ++ b :: post ∧ b0.netProfitBps < b.netProfitBps ∧
        (∀ c ∈ pre, c.netProfitBps < b.netProfitBps) ∧
        (∀ c ∈ post, c.netProfitBps ≤ b.netProfitBps)) := by
  induction l with
  | nil =>
      intro b0 b h
      simp only [List.foldl_nil, Option.some.injEq] at h
      exact Or.inl ⟨h.symm, by simp⟩
  | cons c t ih =>
      intro b0 b h
      simp only [List.foldl_cons] at h
      by_cases hc : b0.netProfitBps < c.netProfitBps
      · rw [show betterTri (some b0) c = some c by simp [betterTri, hc]] at h
        rcases ih c b h with ⟨hb, hall⟩ | ⟨pre, post, ht, hlt, hpre, hpost⟩
        · subst hb
          exact Or.inr ⟨[], t, rfl, hc, by simp, hall⟩
        · refine Or.inr ⟨c :: pre, post, by simp [ht], lt_trans hc hlt, ?_, hpost⟩
          intro x hx
          rcases List.mem_cons.mp hx with hx | hx
          · subst hx; exact hlt
          · exact hpre x hx
      · rw [show betterTri (some b0) c = some b0 by simp [betterTri, hc]] at h
        rcases ih b0 b h with ⟨hb, hall⟩ | ⟨pre, post, ht, hlt, hpre, hpost⟩
        · subst hb
          refine Or.inl ⟨rfl, ?_⟩
          intro x hx
          rcases List.mem_cons.mp hx with hx | hx
          · subst hx; exact not_lt.mp hc
          · exact hall x hx
        · refine Or.inr ⟨c :: pre, post, by simp [ht], hlt, ?_, hpost⟩
          intro x hx
          rcases List.mem_cons.mp hx with hx | hx
          · subst hx; exact lt_of_le_of_lt (not_lt.mp hc) hlt
          · exact hpre x hx

/-- Helper: the fold never loses a some accumulator. -/
theorem betterTri_foldl_isSome (l : List TriangularOpportunity) :
    ∀ b0 : TriangularOpportunity, ∃ b, l.foldl betterTri (some b0) = some b := by
  induction l with
  | nil => intro b0; exact ⟨b0, rfl⟩
  | cons c t ih =>
      intro b0
      simp only [List.foldl_cons]
      by_cases hc : b0.netProfitBps < c.netProfitBps
      · rw [show betterTri (some b0) c = some c by simp [betterTri, hc]]
        exact ih c
      · rw [show betterTri (some b0) c = some b0 by simp [betterTri, hc]]
        exact ih b0

/-- Helper: pickBest returns the first candidate attaining the maximum:
everything before it is strictly smaller, everything after is ≤. -/
theorem pickBest_first_max (l : List TriangularOpportunity) (b : TriangularOpportunity)
    (h : pickBest l = some b) :
    ∃ pre post, l = pre ++ b :: post ∧
      (∀ c ∈ pre, c.netProfitBps < b.netProfitBps) ∧
      (∀ c ∈ post, c.netProfitBps ≤ b.netProfitBps) := by
  cases l with
  | nil => cases h
  | cons c t =>
      have h' : t.foldl betterTri (some c) = some b := by
        simpa [pickBest, betterTri] using h
      rcases betterTri_foldl_some t c b h' with ⟨hb, hall⟩ | ⟨pre, post, ht, hlt, hpre, hpost⟩
      · subst hb
        exact ⟨[], t, rfl, by simp, hall⟩
      · refine ⟨c :: pre, post, by simp [ht], ?_, hpost⟩
        intro x hx
        rcases List.mem_cons.mp hx with hx | hx
        · subst hx; exact hlt
        · exact hpre x hx

/-- Helper: pickBest is none exactly on the empty candidate list. -/
theorem pickBest_none_iff (l : List TriangularOpportunity) :
    pickBest l = none ↔ l = [] := by
  cases l with
  | nil => simp [pickBest]
  | cons c t =>
      simp only [pickBest, List.foldl_cons]
      constructor
      · intro h
        obtain ⟨b, hb⟩ := betterTri_foldl_isSome t c
        rw [show betterTri none c = some c from rfl] at h
        rw [hb] at h
        cases h
      · intro h
        cases h

/-- C7: scanTriangularUSDT retains as best exactly the first candidate, in
enumeration order over all unordered base pairs and both traversal
directions, whose fee- and slippage-adjusted multiplier (reported as
netProfitBps, a strictly monotone image of the multiplier) is maximal:
every earlier candidate is strictly smaller and every later one is ≤, so
ties keep the first found; best is absent iff there are no candidates, and
only this single maximum (plus the candidate count) is retained. -/
theorem scanTriangularUSDT_best_first_max
    (info : List SpotSymbolInfo) (tickers : List Ticker24h) (books : List BookTicker)
    (minQuoteVolumeUSDT : ℚ) (fees : FeesBpsConfig) (slippageBpsPerLeg : ℚ) :
    ((scanTriangularUSDT info tickers books minQuoteVolumeUSDT fees slippageBpsPerLeg).best =
        none ↔
      scanCandidates info tickers books minQuoteVolumeUSDT fees slippageBpsPerLeg = []) ∧
    (∀ b, (scanTriangularUSDT info tickers books minQuoteVolumeUSDT fees
        slippageBpsPerLeg).best = some b →
      ∃ pre post,
        scanCandidates info tickers books minQuoteVolumeUSDT fees slippageBpsPerLeg =
          pre ++ b :: post ∧
        (∀ c ∈ pre, c.netProfitBps < b.netProfitBps) ∧
        (∀ c ∈ post, c.netProfitBps ≤ b.netProfitBps)) ∧
    (scanTriangularUSDT info tickers books minQuoteVolumeUSDT fees
        slippageBpsPerLeg).countChecked =
      (scanCandidates info tickers books minQuoteVolumeUSDT fees slippageBpsPerLeg).length :=
  ⟨pickBest_none_iff _, fun b hb => pickBest_first_max _ b hb, rfl⟩

end ArbBot

namespace ArbBot

/-- A three-symbol snapshot with one eligible triangle (A, B against USDT
with the cross pair AB), unit prices, full liquidity. -/
def scanInfoExample : List SpotSymbolInfo :=
  [⟨"AUSDT", "TRADING", "A", "USDT"⟩, ⟨"BUSDT", "TRADING", "B", "USDT"⟩,
   ⟨"AB", "TRADING", "A", "B"⟩]

/-- 24h tickers for the snapshot. -/
def scanTickersExample : List Ticker24h :=
  [⟨"AUSDT", 0, 0, 1000000⟩, ⟨"BUSDT", 0, 0, 1000000⟩, ⟨"AB", 0, 0, 1000000⟩]

/-- Book tickers for the snapshot. -/
def scanBooksExample : List BookTicker :=
  [⟨"AUSDT", 1, 1⟩, ⟨"BUSDT", 1, 1⟩, ⟨"AB", 1, 1⟩]

/-- The single candidate the snapshot produces. -/
def scanBestExample : TriangularOpportunity :=
  { route1 := "AUSDT", route2 := "AB", route3 := "BUSDT",
    description := "USDT->A->B->USDT", midDirection := .AtoB,
    netProfitBps := bpsFromFactor (computeTriangleFactor 1 ⟨none, some 1, .AtoB⟩ 1 ⟨0, 0⟩ 0) }

/-- C7 witness: the first-maximum characterization applied to the concrete
snapshot, whose best route is the AtoB triangle through AB. -/
theorem scanTriangularUSDT_best_first_max_witness :
    ∃ pre post,
      scanCandidates scanInfoExample scanTickersExample scanBooksExample 0 ⟨0, 0⟩ 0 =
        pre ++ scanBestExample :: post ∧
      (∀ c ∈ pre, c.netProfitBps < scanBestExample.netProfitBps) ∧
      (∀ c ∈ post, c.netProfitBps ≤ scanBestExample.netProfitBps) :=
  (scanTriangularUSDT_best_first_max scanInfoExample scanTickersExample scanBooksExample
    0 ⟨0, 0⟩ 0).2.1 scanBestExample rfl

end ArbBot

namespace ArbBot

/-- What iteration n of the main try block of botLoop (src/bot.ts) does:
run to the end of the try (ranScans is false on the continue paths, which
jump straight back to the while condition and skip the scan passes),
break out of the loop at one of the in-body signal.aborted checks, or
raise an exception. -/
inductive CycleOutcome where
  | completed (ranScans : Bool)
  | abortBreak
  | threw (e : String)
deriving DecidableEq

/-- The environment of a botLoop run: what each cycle body does, whether
the (always-caught) scan passes fail, and the value of signal.aborted at
the two checkpoints outside the try block: the while condition before
iteration n and the check after the try/catch of iteration n. -/
structure LoopEnv where
  cycle : Nat → CycleOutcome
  scanFailure : Nat → Option String
  abortedTop : Nat → Bool
  abortedPost : Nat → Bool

/-- Observable actions of the loop: a cycle starting, the catch block
logging and recording an error (logger.error / botState.recordError), a
cycle being marked finished (botState.setLastCycle), and a swallowed scan
failure (logger.warn in the scan try/catch blocks). -/
inductive LoopEvent where
  | cycleStarted (n : Nat)
  | errorLogged (n : Nat) (e : String)
  | errorRecorded (n : Nat) (e : String)
  | cycleFinished (n : Nat)
  | scanFailureLogged (n : Nat) (e : String)
deriving DecidableEq

/-- The iteration an event belongs to. -/
def LoopEvent.idx : LoopEvent → Nat
  | .cycleStarted n => n
  | .errorLogged n _ => n
  | .errorRecorded n _ => n
  | .cycleFinished n => n
  | .scanFailureLogged n _ => n

/-- The events iteration n emits up to the end of its try/catch: the
continue and full paths mark the cycle finished; the abort break emits
nothing further; a raised exception is caught, logged, recorded, and the
cycle still marked finished. -/
def cycleEvents (n : Nat) : CycleOutcome → List LoopEvent
  | .completed _ => [.cycleStarted n, .cycleFinished n]
  | .abortBreak => [.cycleStarted n]
  | .threw e => [.cycleStarted n, .errorLogged n e, .errorRecorded n e, .cycleFinished n]

/-- The events of the scan passes of iteration n (their try/catch blocks
swallow any failure). -/
def scanEvents (env : LoopEnv) (n : Nat) : List LoopEvent :=
  match env.scanFailure n with
  | some e => [.scanFailureLogged n e]
  | none => []

/-- The control skeleton of botLoop from src/bot.ts, fuel-bounded: each
iteration checks the while condition, runs the cycle body inside
try/catch, checks the signal again, runs the scan passes, sleeps, and
repeats.  Returns the event trace and `some k` when the loop exited during
iteration k because a signal check fired (or a break); `none` when the
fuel ran out with the loop still running. -/
def botLoop (env : LoopEnv) : Nat → Nat → List LoopEvent × Option Nat
  | 0, _ => ([], none)
  | fuel + 1, n =>
    if env.abortedTop n then
      ([], some n)
    else
      match env.cycle n with
      | .abortBreak => (cycleEvents n .abortBreak, some n)
      | .completed ranScans =>
          if ranScans then
            if env.abortedPost n then
              (cycleEvents n (.completed ranScans), some n)
            else
              let rest := botLoop env fuel (n + 1)
              (cycleEvents n (.completed ranScans) ++ scanEvents env n ++ rest.1, rest.2)
          else
            let rest := botLoop env fuel (n + 1)
            (cycleEvents n (.completed ranScans) ++ rest.1, rest.2)
      | .threw e =>
          if env.abortedPost n then
            (cycleEvents n (.threw e), some n)
          else
            let rest := botLoop env fuel (n + 1)
            (cycleEvents n (.threw e) ++ scanEvents env n ++ rest.1, rest.2)

/-- Helper: every event of cycleEvents n belongs to iteration n. -/
theorem mem_cycleEvents {ev : LoopEvent} {n : Nat} {o : CycleOutcome}
    (h : ev ∈ cycleEvents n o) : ev.idx = n := by
  cases o with
  | completed r =>
      rcases List.mem_cons.mp h with h | h
      · subst h; rfl
      · rcases List.mem_singleton.mp h with rfl; rfl
  | abortBreak =>
      rcases List.mem_singleton.mp h with rfl; rfl
  | threw e =>
      rcases List.mem_cons.mp h with h | h
      · subst h; rfl
      rcases List.mem_cons.mp h with h | h
      · subst h; rfl
      rcases List.mem_cons.mp h with h | h
      · subst h; rfl
      · rcases List.mem_singleton.mp h with rfl; rfl

/-- Helper: scan events are scanFailureLogged records of their iteration. -/
theorem mem_scanEvents {ev : LoopEvent} {env : LoopEnv} {n : Nat}
    (h : ev ∈ scanEvents env n) : ∃ e, ev = .scanFailureLogged n e := by
  unfold scanEvents at h
  rcases hs : env.scanFailure n with _ | e <;> rw [hs] at h
  · cases h
  · exact ⟨e, List.mem_singleton.mp h⟩

/-- Helper: an exit index is never smaller than the iteration counter. -/
theorem botLoop_exit_ge (env : LoopEnv) :
    ∀ fuel m k, (botLoop env fuel m).2 = some k → m ≤ k := by
  intro fuel
  induction fuel with
  | zero => intro m k h; cases h
  | succ f ih =>
      intro m k h
      unfold botLoop at h
      split at h
      · simp at h; omega
      · split at h
        · simp at h; omega
        · split at h
          · split at h
            · simp at h; omega
            · simp only at h
              have := ih (m + 1) k h
              omega
          · simp only at h
            have := ih (m + 1) k h
            omega
        · split at h
          · simp at h; omega
          · simp only at h
            have := ih (m + 1) k h
            omega

/-- Helper: every traced event belongs to the current or a later
iteration. -/
theorem botLoop_event_ge (env : LoopEnv) :
    ∀ fuel m ev, ev ∈ (botLoop env fuel m).1 → m ≤ ev.idx := by
  intro fuel
  induction fuel with
  | zero => intro m ev h; cases h
  | succ f ih =>
      intro m ev h
      unfold botLoop at h
      split at h
      · cases h
      · split at h
        · dsimp only at h
          exact le_of_eq (mem_cycleEvents h).symm
        · split at h
          · split at h
            · dsimp only at h
              exact le_of_eq (mem_cycleEvents h).symm
            · simp only [List.mem_append] at h
              rcases h with (h | h) | h
              · exact le_of_eq (mem_cycleEvents h).symm
              · obtain ⟨e, rfl⟩ := mem_scanEvents h
                exact le_refl m
              · have := ih (m + 1) ev h
                omega
          · simp only [List.mem_append] at h
            rcases h with h | h
            · exact le_of_eq (mem_cycleEvents h).symm
            · have := ih (m + 1) ev h
              omega
        · split at h
          · dsimp only at h
            exact le_of_eq (mem_cycleEvents h).symm
          · simp only [List.mem_append] at h
            rcases h with (h | h) | h
            · exact le_of_eq (mem_cycleEvents h).symm
            · obtain ⟨e, rfl⟩ := mem_scanEvents h
              exact le_refl m
            · have := ih (m + 1) ev h
              omega

end ArbBot

namespace ArbBot

/-- C8: every exception raised inside a cycle body is caught: the error is
logged and recorded in state and the cycle is still marked finished, after
which the loop proceeds; and the loop exits only at a point where the
cancellation signal was observed aborted (the while condition, an in-body
abort break, or the post-catch check) -- never because a cycle threw.  In
particular, an iteration that threw can only be the exit iteration if the
post-catch signal check fired. -/
theorem botLoop_error_resilient (env : LoopEnv) :
    ∀ fuel n0 : Nat,
    (∀ k, (botLoop env fuel n0).2 = some k →
       env.abortedTop k = true ∨ env.cycle k = .abortBreak ∨ env.abortedPost k = true) ∧
    (∀ n e, LoopEvent.cycleStarted n ∈ (botLoop env fuel n0).1 →
       env.cycle n = .threw e →
       LoopEvent.errorLogged n e ∈ (botLoop env fuel n0).1 ∧
       LoopEvent.errorRecorded n e ∈ (botLoop env fuel n0).1 ∧
       LoopEvent.cycleFinished n ∈ (botLoop env fuel n0).1 ∧
       ((botLoop env fuel n0).2 = some n → env.abortedPost n = true)) := by
  intro fuel
  induction fuel with
  | zero =>
      intro n0
      constructor
      · intro k h
        cases h
      · intro n e h
        cases h
  | succ f ih =>
      intro n0
      by_cases htop : env.abortedTop n0 = true
      · constructor
        · intro k hk
          simp only [botLoop, htop, if_true] at hk
          injection hk with hk
          subst hk
          exact Or.inl htop
        · intro n e hn
          simp [botLoop, htop] at hn
      · cases hcy : env.cycle n0 with
        | abortBreak =>
            constructor
            · intro k hk
              simp only [botLoop, htop, if_false, hcy] at hk
              injection hk with hk
              subst hk
              exact Or.inr (Or.inl hcy)
            · intro n e hn hne
              simp only [botLoop, htop, if_false, hcy] at hn
              have hidx : n = n0 := by
                have := mem_cycleEvents (show _ ∈ cycleEvents n0 CycleOutcome.abortBreak from hn)
                simpa [LoopEvent.idx] using this
              subst hidx
              rw [hcy] at hne
              cases hne
        | completed r =>
            cases r with
            | false =>
                have hrw : botLoop env (f + 1) n0 =
                    (cycleEvents n0 (.completed false) ++ (botLoop env f (n0 + 1)).1,
                     (botLoop env f (n0 + 1)).2) := by
                  simp [botLoop, htop, hcy]
                rw [hrw]
                constructor
                · intro k hk
                  exact (ih (n0 + 1)).1 k hk
                · intro n e hn hne
                  simp only [List.mem_append] at hn
                  rcases hn with hn | hn
                  · exfalso
                    have hidx : n = n0 := by
                      have := mem_cycleEvents
                        (show _ ∈ cycleEvents n0 (CycleOutcome.completed false) from hn)
                      simpa [LoopEvent.idx] using this
                    subst hidx
                    rw [hcy] at hne
                    cases hne
                  · obtain ⟨h1, h2, h3, h4⟩ := (ih (n0 + 1)).2 n e hn hne
                    exact ⟨List.mem_append_right _ h1, List.mem_append_right _ h2,
                      List.mem_append_right _ h3, h4⟩
            | true =>
                by_cases hpost : env.abortedPost n0 = true
                · have hrw : botLoop env (f + 1) n0 =
                      (cycleEvents n0 (.completed true), some n0) := by
                    simp [botLoop, htop, hcy, hpost]
                  rw [hrw]
                  constructor
                  · intro k hk
                    injection hk with hk
                    subst hk
                    exact Or.inr (Or.inr hpost)
                  · intro n e hn hne
                    exfalso
                    have hidx : n = n0 := by
                      have := mem_cycleEvents
                        (show _ ∈ cycleEvents n0 (CycleOutcome.completed true) from hn)
                      simpa [LoopEvent.idx] using this
                    subst hidx
                    rw [hcy] at hne
                    cases hne
                · have hrw : botLoop env (f + 1) n0 =
                      (cycleEvents n0 (.completed true) ++ scanEvents env n0 ++
                        (botLoop env f (n0 + 1)).1,
                       (botLoop env f (n0 + 1)).2) := by
                    simp [botLoop, htop, hcy, hpost]
                  rw [hrw]
                  constructor
                  · intro k hk
                    exact (ih (n0 + 1)).1 k hk
                  · intro n e hn hne
                    simp only [List.mem_append] at hn
                    rcases hn with (hn | hn) | hn
                    · exfalso
                      have hidx : n = n0 := by
                        have := mem_cycleEvents
                          (show _ ∈ cycleEvents n0 (CycleOutcome.completed true) from hn)
                        simpa [LoopEvent.idx] using this
                      subst hidx
                      rw [hcy] at hne
                      cases hne
                    · exfalso
                      obtain ⟨e2, he2⟩ := mem_scanEvents hn
                      cases he2
                    · obtain ⟨h1, h2, h3, h4⟩ := (ih (n0 + 1)).2 n e hn hne
                      refine ⟨?_, ?_, ?_, h4⟩ <;>
                        simp only [List.append_assoc, List.mem_append] <;>
                        exact Or.inr (Or.inr (by assumption))
        | threw e0 =>
            by_cases hpost : env.abortedPost n0 = true
            · have hrw : botLoop env (f + 1) n0 =
                  (cycleEvents n0 (.threw e0), some n0) := by
                simp [botLoop, htop, hcy, hpost]
              rw [hrw]
              constructor
              · intro k hk
                injection hk with hk
                subst hk
                exact Or.inr (Or.inr hpost)
              · intro n e hn hne
                have hidx : n = n0 := by
                  have := mem_cycleEvents
                    (show _ ∈ cycleEvents n0 (CycleOutcome.threw e0) from hn)
                  simpa [LoopEvent.idx] using this
                subst hidx
                rw [hcy] at hne
                injection hne with hne
                subst hne
                exact ⟨by simp [cycleEvents], by simp [cycleEvents], by simp [cycleEvents],
                  fun _ => hpost⟩
            · have hrw : botLoop env (f + 1) n0 =
                  (cycleEvents n0 (.threw e0) ++ scanEvents env n0 ++
                    (botLoop env f (n0 + 1)).1,
                   (botLoop env f (n0 + 1)).2) := by
                simp [botLoop, htop, hcy, hpost]
              rw [hrw]
              constructor
              · intro k hk
                exact (ih (n0 + 1)).1 k hk
              · intro n e hn hne
                simp only [List.mem_append] at hn
                rcases hn with (hn | hn) | hn
                · have hidx : n = n0 := by
                    have := mem_cycleEvents
                      (show _ ∈ cycleEvents n0 (CycleOutcome.threw e0) from hn)
                    simpa [LoopEvent.idx] using this
                  subst hidx
                  rw [hcy] at hne
                  injection hne with hne
                  subst hne
                  refine ⟨?_, ?_, ?_, ?_⟩
                  · simp only [List.append_assoc, List.mem_append]
                    exact Or.inl (by simp [cycleEvents])
                  · simp only [List.append_assoc, List.mem_append]
                    exact Or.inl (by simp [cycleEvents])
                  · simp only [List.append_assoc, List.mem_append]
                    exact Or.inl (by simp [cycleEvents])
                  · intro hex
                    exfalso
                    have := botLoop_exit_ge env f (n + 1) n hex
                    omega
                · exfalso
                  obtain ⟨e2, he2⟩ := mem_scanEvents hn
                  cases he2
                · obtain ⟨h1, h2, h3, h4⟩ := (ih (n0 + 1)).2 n e hn hne
                  refine ⟨?_, ?_, ?_, h4⟩ <;>
                    simp only [List.append_assoc, List.mem_append] <;>
                    exact Or.inr (Or.inr (by assumption))

end ArbBot

namespace ArbBot

/-- A loop environment whose first cycle throws and whose signal aborts
from iteration 2 on. -/
def loopEnvExample : LoopEnv :=
  { cycle := fun n => if n = 0 then .threw "boom" else .completed true,
    scanFailure := fun _ => none,
    abortedTop := fun n => decide (2 ≤ n),
    abortedPost := fun _ => false }

/-- C8 witness: the resilience theorem applied to the concrete
environment: the thrown error of cycle 0 is recorded and the cycle is
marked finished while the loop continues. -/
theorem botLoop_error_resilient_witness :
    LoopEvent.errorRecorded 0 "boom" ∈ (botLoop loopEnvExample 5 0).1 ∧
    LoopEvent.cycleFinished 0 ∈ (botLoop loopEnvExample 5 0).1 :=
  ⟨((botLoop_error_resilient loopEnvExample 5 0).2 0 "boom" (by decide) rfl).2.1,
   ((botLoop_error_resilient loopEnvExample 5 0).2 0 "boom" (by decide) rfl).2.2.1⟩

end ArbBot
